import Mathlib

/-!
Verification of the tile-partition, register-programming and completion-poll
logic of the Nuvoton NPCM750 ECE ("Hextile Encoding/Compression Engine")
drivers.  The repository contains two near-identical driver variants:

* `drivers/video/compression/npcm750_ece.c`  (functions `ece_*`, `drv_ioctl`)
* `drivers/media/platform/nuvoton/npcm750_ece.c` (functions `npcm750_ece_*`)

This file is a shallow embedding of both variants.  Machine `u32` values are
modelled as `Nat`; where 32-bit wrap-around matters the embedding applies an
explicit `% 2^32` (`u32`, `u32_sub`, `compl32`).  Memory-mapped registers are
modelled as a record `Regs` with a read/write interface indexed by the
register offsets of the source; the mapped output buffer (`ed_buffer`) is a
byte function `Nat → Nat`.  The hardware is passive in this model: register
values change only through driver writes, so a spin loop on a status bit
completes (after one read) exactly when the bit is set and blocks forever
(`none`) otherwise.  Bytes read from the buffer are unsigned chars of the
32-bit ARM target, i.e. values in `[0, 256)`; where a read can race with
hardware DMA (the retry loop of the video variant's `ece_get_ed_size`), the
buffer is additionally indexed by the attempt number.  Completion-poll
operations also return the list of MMIO transactions they perform
(`MmioEv`), so that ordering claims (read-before-clear, re-read-after-clear)
are visible in the result.
-/

/-! ## Register map and constants (identical macros in both source files) -/

def DDA_CTRL : Nat := 0x0000
def DDA_STS : Nat := 0x0004
def FBR_BA : Nat := 0x0008
def ED_BA : Nat := 0x000C
def RECT_XY : Nat := 0x0010
def RECT_DIMEN : Nat := 0x0014
def RESOL : Nat := 0x001C
def HEX_CTRL : Nat := 0x0040
def HEX_RECT_OFFSET : Nat := 0x0048

/-- CDREADY / DDA_STS_CDREADY: BIT(8) of the status register. -/
def CDREADY : Nat := 0x100

/-- ENC_GAP / HEX_CTRL_ENC_GAP: bits 8..12 of the hex-control register. -/
def ENC_GAP : Nat := 0x1f00

def ENC_GAP_OFFSET : Nat := 8

def ENC_MIN_GAP_SIZE : Nat := 4

/-- ECEEN / DDA_CTRL_ECEEN: BIT(0) of the control register. -/
def ECEEN : Nat := 1

/-- ENCDIS / HEX_CTRL_ENCDIS: BIT(0) of the hex-control register. -/
def ENCDIS : Nat := 1

def ECE_RECT_DIMEN_HLTR_OFFSET : Nat := 27
def ECE_RECT_DIMEN_HR_OFFSET : Nat := 16
def ECE_RECT_DIMEN_WLTR_OFFSET : Nat := 11
def ECE_RECT_DIMEN_WR_OFFSET : Nat := 0

def ECE_TILE_W : Nat := 16
def ECE_TILE_H : Nat := 16

def ECE_MIN_LP : Nat := 512
def ECE_MAX_LP : Nat := 4096

/-- LP_512 / RESOL_FB_LP_512 and friends: resolution codes for the RESOL
    register. -/
def LP_512 : Nat := 0
def LP_1024 : Nat := 1
def LP_2048 : Nat := 2
def LP_2560 : Nat := 3
def LP_4096 : Nat := 4

/-! ## 32-bit arithmetic helpers -/

/-- Truncation of a `Nat` to the `u32` range. -/
def u32 (x : Nat) : Nat := x % 2 ^ 32

/-- Wrapping 32-bit subtraction (`a - b` on `u32` operands, `a < 2^32`). -/
def u32_sub (a b : Nat) : Nat := (a + 2 ^ 32 - b % 2 ^ 32) % 2 ^ 32

/-- Bitwise complement at 32 bits: `~m` on the 32-bit target, for
    `m < 2^32`. -/
def compl32 (m : Nat) : Nat := 2 ^ 32 - 1 - m % 2 ^ 32

/-! ## Tile partitioner -/

/-- Tile-partition result computed inside `ece_enc_rect` /
    `npcm750_ece_enc_rect` before the dimension-register write: the local
    variables `w_tile`, `h_tile`, `w_size`, `h_size` at the point where the
    packed `RECT_DIMEN` value is formed. -/
structure TileLayout where
  w_tile : Nat
  h_tile : Nat
  w_size : Nat
  h_size : Nat
deriving DecidableEq

/-- Tile-partition computation of `ece_enc_rect` / `npcm750_ece_enc_rect`
    (the two variants are textually identical here):

    w_tile = r_w / ECE_TILE_W; h_tile = r_h / ECE_TILE_H;
    w_size = ECE_TILE_W; h_size = ECE_TILE_H;
    if (r_w % ECE_TILE_W) { w_tile += 1; w_size = r_w % ECE_TILE_W; }
    if (r_h % ECE_TILE_H || !h_tile) { h_tile += 1; h_size = r_h % ECE_TILE_H; } -/
def ece_enc_rect_layout (r_w r_h : Nat) : TileLayout :=
  let w_tile := r_w / ECE_TILE_W
  let h_tile := r_h / ECE_TILE_H
  let wpair :=
    if r_w % ECE_TILE_W ≠ 0 then (w_tile + 1, r_w % ECE_TILE_W)
    else (w_tile, ECE_TILE_W)
  let hpair :=
    if r_h % ECE_TILE_H ≠ 0 ∨ h_tile = 0 then (h_tile + 1, r_h % ECE_TILE_H)
    else (h_tile, ECE_TILE_H)
  { w_tile := wpair.1, h_tile := hpair.1, w_size := wpair.2, h_size := hpair.2 }

/-- Packed `RECT_DIMEN` register value formed from the tile layout
    (`temp` in the source), with 32-bit wrap-around made explicit. -/
def rect_dimen_value (t : TileLayout) : Nat :=
  u32 ((u32_sub t.w_size 1 <<< ECE_RECT_DIMEN_WLTR_OFFSET) |||
       (u32_sub t.h_size 1 <<< ECE_RECT_DIMEN_HLTR_OFFSET) |||
       (u32_sub t.w_tile 1 <<< ECE_RECT_DIMEN_WR_OFFSET) |||
       (u32_sub t.h_tile 1 <<< ECE_RECT_DIMEN_HR_OFFSET))

/-! ## Register interface -/

/-- Register file of the ECE block (offsets 0x00 - 0x48; every field is a
    `u32` value). -/
structure Regs where
  dda_ctrl : Nat
  dda_sts : Nat
  fbr_ba : Nat
  ed_ba : Nat
  rect_xy : Nat
  rect_dimen : Nat
  resol : Nat
  hex_ctrl : Nat
  hex_rect_offset : Nat
deriving DecidableEq

/-- Register read (`readl(base + off)` / `npcm750_ece_read`). -/
def Regs.read (r : Regs) (off : Nat) : Nat :=
  if off = DDA_CTRL then r.dda_ctrl
  else if off = DDA_STS then r.dda_sts
  else if off = FBR_BA then r.fbr_ba
  else if off = ED_BA then r.ed_ba
  else if off = RECT_XY then r.rect_xy
  else if off = RECT_DIMEN then r.rect_dimen
  else if off = RESOL then r.resol
  else if off = HEX_CTRL then r.hex_ctrl
  else if off = HEX_RECT_OFFSET then r.hex_rect_offset
  else 0

/-- Register write (`writel(v, base + off)` / `npcm750_ece_write`). -/
def Regs.write (r : Regs) (off v : Nat) : Regs :=
  if off = DDA_CTRL then { r with dda_ctrl := v }
  else if off = DDA_STS then { r with dda_sts := v }
  else if off = FBR_BA then { r with fbr_ba := v }
  else if off = ED_BA then { r with ed_ba := v }
  else if off = RECT_XY then { r with rect_xy := v }
  else if off = RECT_DIMEN then { r with rect_dimen := v }
  else if off = RESOL then { r with resol := v }
  else if off = HEX_CTRL then { r with hex_ctrl := v }
  else if off = HEX_RECT_OFFSET then { r with hex_rect_offset := v }
  else r

/-- Read-modify-write restricted to a mask (`npcm750_ece_update_bits`):
    `t = read(off); t &= ~mask; t |= bits & mask; write(off, t)`. -/
def npcm750_ece_update_bits (regs : Regs) (off mask bits : Nat) : Regs :=
  let t := regs.read off
  let t2 := (t &&& compl32 mask) ||| (bits &&& mask)
  regs.write off t2

/-- Plain register write helper of the media variant
    (`npcm750_ece_write`). -/
def npcm750_ece_write (regs : Regs) (reg val : Nat) : Regs :=
  regs.write reg val

/-- Driver software state shared by both variants: the register window plus
    the fields of `struct npcm750_ece` the modelled operations touch
    (`lin_pitch`, `enc_gap`).  The remaining fields of the C struct (device
    plumbing, buffer window addresses, `width`/`height`, `initialised`) are
    not read by the operations under verification. -/
structure EceDev where
  regs : Regs
  lin_pitch : Nat
  enc_gap : Nat
deriving DecidableEq

/-- All-zero register file, used to build concrete witnesses. -/
def regs0 : Regs := ⟨0, 0, 0, 0, 0, 0, 0, 0, 0⟩

/-- Concrete device state for witnesses (default line pitch 2048). -/
def dev0 : EceDev := ⟨regs0, 2048, 4⟩

/-! ## Line pitch configuration -/

/-- The switch statement of `ece_set_lp` / `npcm750_ece_set_lp`: maps a
    pitch to its RESOL resolution code, or `none` for the `default: return`
    branch. -/
def lpCode (pitch : Nat) : Option Nat :=
  if pitch = 512 then some LP_512
  else if pitch = 1024 then some LP_1024
  else if pitch = 2048 then some LP_2048
  else if pitch = 2560 then some LP_2560
  else if pitch = 4096 then some LP_4096
  else none

/-- ece_set_lp (video variant): on a legal pitch stores
    `lin_pitch = pitch` and writes the resolution code to RESOL; otherwise
    returns with no change. -/
def ece_set_lp (dev : EceDev) (pitch : Nat) : EceDev :=
  match lpCode pitch with
  | none => dev
  | some lp => { dev with lin_pitch := pitch, regs := dev.regs.write RESOL lp }

/-- npcm750_ece_set_lp (media variant); textually identical logic to
    `ece_set_lp`, going through `npcm750_ece_write`. -/
def npcm750_ece_set_lp (dev : EceDev) (pitch : Nat) : EceDev :=
  match lpCode pitch with
  | none => dev
  | some lp =>
    { dev with lin_pitch := pitch,
               regs := npcm750_ece_write dev.regs RESOL lp }

/-- Legal line-pitch values enumerated by the spec. -/
def legalLP (pitch : Nat) : Prop :=
  pitch = 512 ∨ pitch = 1024 ∨ pitch = 2048 ∨ pitch = 2560 ∨ pitch = 4096

instance (pitch : Nat) : Decidable (legalLP pitch) := by
  unfold legalLP
  infer_instance

/-! ## Gap computation -/

/-- Gap computation of the ECE_IOCGETED branch of `drv_ioctl` /
    `npcm750_ece_ioctl`, applied to the value read back from HEX_CTRL:
    `enc_gap = (hex_ctrl & ENC_GAP) >> ENC_GAP_OFFSET;
     if (enc_gap == 0) enc_gap = ENC_MIN_GAP_SIZE;`. -/
def enc_gap_of_hex_ctrl (hex_ctrl : Nat) : Nat :=
  let g := (hex_ctrl &&& ENC_GAP) >>> ENC_GAP_OFFSET
  if g = 0 then ENC_MIN_GAP_SIZE else g

/-! ## Framebuffer address -/

/-- ece_set_fb_addr / npcm750_ece_set_fb_addr: programs the framebuffer
    base register. -/
def ece_set_fb_addr (regs : Regs) (buffer : Nat) : Regs :=
  regs.write FBR_BA buffer

/-- Error number used by the driver for a zero framebuffer address
    (`-EFAULT`). -/
def EFAULT : Int := 14

/-- ECE_IOCSETFB branch of `drv_ioctl` / `npcm750_ece_ioctl`:
    `if (!data.framebuf) { err = -EFAULT; break; }
     ece_set_fb_addr(ece, data.framebuf);`
    returning the error code and the device state. -/
def drv_ioctl_setfb (dev : EceDev) (framebuf : Nat) : Int × EceDev :=
  if framebuf = 0 then (-EFAULT, dev)
  else (0, { dev with regs := ece_set_fb_addr dev.regs framebuf })

/-! ## Rectangle programming -/

/-- fifo_reset_bypass (video variant): clear then set ECEEN on DDA_CTRL. -/
def fifo_reset_bypass (regs : Regs) : Regs :=
  let temp := regs.read DDA_CTRL
  let temp := temp &&& compl32 ECEEN
  let regs := regs.write DDA_CTRL temp
  let temp := temp ||| ECEEN
  regs.write DDA_CTRL temp

/-- npcm750_ece_fifo_reset_bypass (media variant): the same toggle via
    `npcm750_ece_update_bits`. -/
def npcm750_ece_fifo_reset_bypass (regs : Regs) : Regs :=
  let regs := npcm750_ece_update_bits regs DDA_CTRL ECEEN (compl32 ECEEN)
  npcm750_ece_update_bits regs DDA_CTRL ECEEN ECEEN

/-- ece_enc_rect / npcm750_ece_enc_rect: programs (but does not wait for)
    one rectangle: FIFO-bypass toggle, rectangle byte offset
    `y * lin_pitch + x * 2` into RECT_XY, then the packed tile layout into
    RECT_DIMEN. -/
def ece_enc_rect (dev : EceDev) (r_off_x r_off_y r_w r_h : Nat) : EceDev :=
  let rect_offset := u32 (r_off_y * dev.lin_pitch + r_off_x * 2)
  let regs := fifo_reset_bypass dev.regs
  let regs := regs.write RECT_XY rect_offset
  let regs := regs.write RECT_DIMEN (rect_dimen_value (ece_enc_rect_layout r_w r_h))
  { dev with regs := regs }

/-! ## Reset sequences -/

/-- ece_clear_rect_offset (video variant): writes 0 to HEX_RECT_OFFSET. -/
def ece_clear_rect_offset (regs : Regs) : Regs :=
  regs.write HEX_RECT_OFFSET 0

/-- npcm750_ece_clear_rect_offset (media variant). -/
def npcm750_ece_clear_rect_offset (regs : Regs) : Regs :=
  npcm750_ece_write regs HEX_RECT_OFFSET 0

/-- ece_reset (video variant): explicit read/modify/write sequence on
    DDA_CTRL (clear then set ECEEN), then on HEX_CTRL (set then clear
    ENCDIS), then clearing HEX_RECT_OFFSET, then recomputing the cached
    `enc_gap` from HEX_CTRL. -/
def ece_reset (dev : EceDev) : EceDev :=
  let temp := dev.regs.read DDA_CTRL
  let temp := temp &&& compl32 ECEEN
  let regs := dev.regs.write DDA_CTRL temp
  let temp := temp ||| ECEEN
  let regs := regs.write DDA_CTRL temp
  let temp2 := regs.read HEX_CTRL
  let temp2 := temp2 ||| ENCDIS
  let regs := regs.write HEX_CTRL temp2
  let temp3 := regs.read HEX_CTRL
  let temp3 := temp3 &&& compl32 ENCDIS
  let regs := regs.write HEX_CTRL temp3
  let regs := regs.write HEX_RECT_OFFSET 0
  let gap := (regs.read HEX_CTRL &&& ENC_GAP) >>> ENC_GAP_OFFSET
  let gap := if gap = 0 then ENC_MIN_GAP_SIZE else gap
  { dev with regs := regs, enc_gap := gap }

/-- npcm750_ece_reset (media variant): the same toggles expressed through
    `npcm750_ece_update_bits`, interleaved in a different order
    (ECEEN clear, ENCDIS set, ECEEN set, ENCDIS clear), then clearing
    HEX_RECT_OFFSET. -/
def npcm750_ece_reset (dev : EceDev) : EceDev :=
  let regs := npcm750_ece_update_bits dev.regs DDA_CTRL ECEEN (compl32 ECEEN)
  let regs := npcm750_ece_update_bits regs HEX_CTRL ENCDIS ENCDIS
  let regs := npcm750_ece_update_bits regs DDA_CTRL ECEEN ECEEN
  let regs := npcm750_ece_update_bits regs HEX_CTRL ENCDIS (compl32 ENCDIS)
  let regs := npcm750_ece_clear_rect_offset regs
  { dev with regs := regs }

/-! ## Completion poller -/

/-- One MMIO transaction: a register read, a register write, or a read of
    one byte of the mapped output buffer. -/
inductive MmioEv where
  | rdReg (off val : Nat)
  | wrReg (off val : Nat)
  | rdBuf (off val : Nat)
deriving DecidableEq

/-- Event predicate: a read of the status register. -/
def isStsRead (e : MmioEv) : Bool :=
  match e with
  | .rdReg off _ => off == DDA_STS
  | _ => false

/-- Trace predicate formalising the final clause of the wait-and-read-size
    claim: somewhere in the trace a status-register write with the ready
    bit (bit 8) set is followed, later in the trace, by a status-register
    read. -/
def hasStatusReadAfterClearWrite : List MmioEv → Bool
  | [] => false
  | .wrReg off v :: rest =>
      ((off == DDA_STS) && v.testBit 8 && rest.any isStsRead) ||
        hasStatusReadAfterClearWrite rest
  | _ :: rest => hasStatusReadAfterClearWrite rest

/-- npcm750_ece_is_rect_compressed (media variant):
    `if (!(read(DDA_STS) & DDA_STS_CDREADY)) return 0; return 1;`. -/
def npcm750_ece_is_rect_compressed (regs : Regs) : Nat :=
  if regs.read DDA_STS &&& CDREADY = 0 then 0 else 1

/-- npcm750_ece_clear_drs (media variant):
    `npcm750_ece_update_bits(ece, DDA_STS, CDREADY, CDREADY)`, instrumented
    with its two MMIO transactions (the read and the write of the
    read-modify-write; there is no re-read after the write). -/
def npcm750_ece_clear_drs (regs : Regs) : Regs × List MmioEv :=
  let t := regs.read DDA_STS
  let t2 := (t &&& compl32 CDREADY) ||| (CDREADY &&& CDREADY)
  (regs.write DDA_STS t2, [.rdReg DDA_STS t, .wrReg DDA_STS t2])

/-- npcm750_ece_get_ed_size (media variant): spins on the CDREADY bit,
    reads 4 bytes of the mapped output buffer at `offset` (the rectangle
    offset captured before the encode), combines them little-endian, then
    clears CDREADY via `npcm750_ece_clear_drs`.  Registers are static in
    this model, so the spin is modelled as: block (`none`) when CDREADY is
    clear, else proceed after a single status read.  The returned trace
    lists the MMIO transactions in program order. -/
def npcm750_ece_get_ed_size (regs : Regs) (buf : Nat → Nat) (offset : Nat) :
    Option (Nat × Regs × List MmioEv) :=
  if npcm750_ece_is_rect_compressed regs = 0 then none
  else
    let b0 := buf offset
    let b1 := buf (offset + 1)
    let b2 := buf (offset + 2)
    let b3 := buf (offset + 3)
    let size := b0 ||| (b1 <<< 8) ||| (b2 <<< 16) ||| (b3 <<< 24)
    let cd := npcm750_ece_clear_drs regs
    some (size, cd.1,
      [MmioEv.rdReg DDA_STS (regs.read DDA_STS),
       MmioEv.rdBuf offset b0,
       MmioEv.rdBuf (offset + 1) b1,
       MmioEv.rdBuf (offset + 2) b2,
       MmioEv.rdBuf (offset + 3) b3] ++ cd.2)

/-- Register file with only the CDREADY status bit set; concrete starting
    state for poller witnesses. -/
def regsReady : Regs := { regs0 with dda_sts := CDREADY }

/-- All-zero output buffer. -/
def bufZero : Nat → Nat := fun _ => 0

/-- ece_is_rect_compressed (video variant): `read(DDA_STS) & CDREADY`. -/
def ece_is_rect_compressed (regs : Regs) : Nat :=
  regs.read DDA_STS &&& CDREADY

/-- ece_clear_drs (video variant): read DDA_STS, or in CDREADY, write it
    back, then read DDA_STS once more (the verification re-read of the
    source, whose value is discarded). -/
def ece_clear_drs (regs : Regs) : Regs × List MmioEv :=
  let t := regs.read DDA_STS
  let t2 := t ||| CDREADY
  let regs2 := regs.write DDA_STS t2
  (regs2, [.rdReg DDA_STS t, .wrReg DDA_STS t2, .rdReg DDA_STS (regs2.read DDA_STS)])

/-- Little-endian combination of the 4 buffer bytes read at attempt `i`
    in the retry loop of the video variant's `ece_get_ed_size`
    (`ed_buffer[0] | ed_buffer[1] << 8 | ed_buffer[2] << 16 |
      ed_buffer[3] << 24`).  The buffer is indexed by the attempt number
    because hardware DMA may change it between attempts — that race is the
    reason the retry loop exists. -/
def ece_read_size (buf : Nat → Nat → Nat) (i : Nat) : Nat :=
  buf i 0 ||| (buf i 1 <<< 8) ||| (buf i 2 <<< 16) ||| (buf i 3 <<< 24)

/-- The retry loop of the video variant's `ece_get_ed_size`:
    `count = 0; do { size = <decode>; count++; } while (size == 0 && count < 30);`
    returning the final `size` and the number of attempts performed.
    Called with `count = 0`. -/
def ece_size_retry (buf : Nat → Nat → Nat) (count : Nat) : Nat × Nat :=
  if h : ece_read_size buf count = 0 ∧ count + 1 < 30 then
    ece_size_retry buf (count + 1)
  else
    (ece_read_size buf count, count + 1)
termination_by 30 - count
decreasing_by omega

/-- ece_get_ed_size (video variant): spin until
    `ece_is_rect_compressed == CDREADY`, run the bounded retry loop, then
    `ece_clear_drs`.  As for the media variant, the spin on the static
    register state is modelled as blocking (`none`) iff CDREADY is clear. -/
def ece_get_ed_size (regs : Regs) (buf : Nat → Nat → Nat) :
    Option (Nat × Regs) :=
  if ece_is_rect_compressed regs ≠ CDREADY then none
  else some ((ece_size_retry buf 0).1, (ece_clear_drs regs).1)

/-- Concrete attempt-indexed buffer for the retry-loop witness: attempts 0
    and 1 read all-zero bytes, attempt 2 reads size 9. -/
def bufLate : Nat → Nat → Nat :=
  fun i j => if i < 2 then 0 else if j = 0 then 9 else 0

/-! ## Bitwise helper lemmas -/

lemma land_land_self (x m : Nat) : (x &&& m) &&& m = x &&& m := by
  apply Nat.eq_of_testBit_eq
  intro i
  simp only [Nat.testBit_and]
  cases hx : x.testBit i <;> cases hm : m.testBit i <;> rfl

lemma land_lor_land (x o m : Nat) : ((x &&& m) ||| o) &&& m = (x ||| o) &&& m := by
  apply Nat.eq_of_testBit_eq
  intro i
  simp only [Nat.testBit_and, Nat.testBit_or]
  cases hx : x.testBit i <;> cases ho : o.testBit i <;> cases hm : m.testBit i <;> rfl

lemma lor_shiftLeft_eq_add (a m k : Nat) (h : a < 2 ^ k) :
    a ||| (m <<< k) = a + 2 ^ k * m := by
  apply Nat.eq_of_testBit_eq
  intro j
  rw [Nat.add_comm a (2 ^ k * m), Nat.testBit_mul_pow_two_add m h j,
    Nat.testBit_or, Nat.testBit_shiftLeft]
  by_cases hj : j < k
  · simp [hj, Nat.not_le.mpr hj]
  · have ha : a.testBit j = false :=
      Nat.testBit_lt_two_pow
        (lt_of_lt_of_le h (Nat.pow_le_pow_right (by norm_num) (Nat.le_of_not_lt hj)))
    simp [hj, ha, Nat.le_of_not_lt hj]

lemma gap_field_eq (x : Nat) :
    (x &&& ENC_GAP) >>> ENC_GAP_OFFSET = x / 2 ^ 8 % 2 ^ 5 := by
  apply Nat.eq_of_testBit_eq
  intro j
  have hgap : ENC_GAP = 2 ^ 8 * (2 ^ 5 - 1) + 0 := by decide
  rw [ENC_GAP_OFFSET, Nat.testBit_shiftRight, Nat.testBit_and, hgap,
    Nat.testBit_mul_pow_two_add (2 ^ 5 - 1) (by norm_num) (8 + j),
    ← Nat.shiftRight_eq_div_pow, Nat.testBit_mod_two_pow, Nat.testBit_shiftRight]
  have h8 : ¬ (8 + j < 8) := by omega
  have h31 : Nat.testBit 31 j = decide (j < 5) := by
    rw [show (31 : Nat) = 2 ^ 5 - 1 by norm_num, Nat.testBit_two_pow_sub_one]
  simp [h8, h31, Bool.and_comm]

lemma compl32_one : compl32 1 = 0xfffffffe := by decide

lemma land_cdready_eq_zero (s : Nat) :
    s &&& CDREADY = 0 ↔ s.testBit 8 = false := by
  rw [CDREADY, show (0x100 : Nat) = 2 ^ 8 by norm_num, Nat.and_two_pow]
  cases h : s.testBit 8 <;> simp [h]

lemma le32_decode (b0 b1 b2 b3 : Nat)
    (h0 : b0 < 256) (h1 : b1 < 256) (h2 : b2 < 256) (_h3 : b3 < 256) :
    b0 ||| (b1 <<< 8) ||| (b2 <<< 16) ||| (b3 <<< 24) =
      b0 + 2 ^ 8 * b1 + 2 ^ 16 * b2 + 2 ^ 24 * b3 := by
  rw [lor_shiftLeft_eq_add b0 b1 8 (by omega),
    lor_shiftLeft_eq_add _ b2 16 (by omega),
    lor_shiftLeft_eq_add _ b3 24 (by omega)]

/-! ## Claims C1 - C3: the tile partition -/

/-- C1: for every rectangle, the tile partition satisfies
    `tile_cols = ceil(w / 16)`, `last_col_width = 16` when `w` is an exact
    multiple of 16 and `w mod 16` otherwise; `tile_rows = floor(h / 16)`
    incremented by 1 exactly when `h` is not a multiple of 16 or
    `floor(h / 16)` is zero; `last_row_height = 16` when no increment
    happens and `h mod 16` otherwise. -/
theorem C1_tile_partition (w h : Nat) :
    (ece_enc_rect_layout w h).w_tile = (w + ECE_TILE_W - 1) / ECE_TILE_W ∧
    (ece_enc_rect_layout w h).w_size =
      (if w % ECE_TILE_W = 0 then ECE_TILE_W else w % ECE_TILE_W) ∧
    (ece_enc_rect_layout w h).h_tile =
      h / ECE_TILE_H +
        (if h % ECE_TILE_H ≠ 0 ∨ h / ECE_TILE_H = 0 then 1 else 0) ∧
    (ece_enc_rect_layout w h).h_size =
      (if h % ECE_TILE_H ≠ 0 ∨ h / ECE_TILE_H = 0 then h % ECE_TILE_H
       else ECE_TILE_H) := by
  simp only [ece_enc_rect_layout, ECE_TILE_W, ECE_TILE_H]
  split_ifs <;> simp_all <;> omega

/-- C2 counterexample: the claimed invariant `tile_cols ≥ 1` fails for the
    zero-width rectangle: the partition of `w = 0, h = 16` yields
    `tile_cols = 0` (and similarly `w = 16, h = 0` yields
    `last_row_height = 0`, outside `[1, 16]`). -/
theorem C2_invariant_counterexample :
    (ece_enc_rect_layout 0 16).w_tile = 0 ∧
    (ece_enc_rect_layout 16 0).h_size = 0 := by
  constructor <;> rfl

/-- C2 (amended): for every rectangle with positive width and height, the
    partition satisfies `tile_cols ≥ 1`, `tile_rows ≥ 1`, and both
    `last_col_width` and `last_row_height` lie in `[1, 16]`. -/
theorem C2_invariant (w h : Nat) (hw : 1 ≤ w) (hh : 1 ≤ h) :
    1 ≤ (ece_enc_rect_layout w h).w_tile ∧
    1 ≤ (ece_enc_rect_layout w h).h_tile ∧
    1 ≤ (ece_enc_rect_layout w h).w_size ∧
    (ece_enc_rect_layout w h).w_size ≤ ECE_TILE_W ∧
    1 ≤ (ece_enc_rect_layout w h).h_size ∧
    (ece_enc_rect_layout w h).h_size ≤ ECE_TILE_H := by
  simp only [ece_enc_rect_layout, ECE_TILE_W, ECE_TILE_H]
  split_ifs <;> simp_all <;> omega

/-- C2 witness: the amended invariant evaluated at the concrete rectangle
    20 x 20. -/
theorem C2_invariant_witness :
    1 ≤ (ece_enc_rect_layout 20 20).w_tile ∧
    1 ≤ (ece_enc_rect_layout 20 20).h_tile ∧
    1 ≤ (ece_enc_rect_layout 20 20).w_size ∧
    (ece_enc_rect_layout 20 20).w_size ≤ ECE_TILE_W ∧
    1 ≤ (ece_enc_rect_layout 20 20).h_size ∧
    (ece_enc_rect_layout 20 20).h_size ≤ ECE_TILE_H :=
  C2_invariant 20 20 (by decide) (by decide)

/-- C3 counterexample: the claim fails at width 0 (which is strictly less
    than the tile width 16): the partition yields `tile_cols = 0`, not 1,
    and `last_col_width = 16`, not `w = 0`. -/
theorem C3_narrow_counterexample :
    (0 : Nat) < ECE_TILE_W ∧
    (ece_enc_rect_layout 0 5).w_tile = 0 ∧
    (ece_enc_rect_layout 0 5).w_size = ECE_TILE_W := by
  refine ⟨by decide, rfl, rfl⟩

/-- C3 (amended): for every rectangle whose width `w` satisfies
    `1 ≤ w < 16`, the partition yields `tile_cols = 1` and
    `last_col_width = w`. -/
theorem C3_narrow_rect (w h : Nat) (h1 : 1 ≤ w) (h2 : w < ECE_TILE_W) :
    (ece_enc_rect_layout w h).w_tile = 1 ∧
    (ece_enc_rect_layout w h).w_size = w := by
  simp only [ece_enc_rect_layout, ECE_TILE_W] at *
  split_ifs <;> simp_all <;> omega

/-- C3 witness: the amended claim evaluated at the concrete rectangle
    7 x 32. -/
theorem C3_narrow_rect_witness :
    (ece_enc_rect_layout 7 32).w_tile = 1 ∧
    (ece_enc_rect_layout 7 32).w_size = 7 :=
  C3_narrow_rect 7 32 (by decide) (by decide)

/-! ## Claim C6: line pitch configuration -/

/-- C6: `configure_line_pitch` (= `ece_set_lp` / `npcm750_ece_set_lp`) is
    idempotent; any value outside the enumerated legal set leaves the stored
    `lin_pitch` and the whole register state (including RESOL) unchanged;
    hence a legal `lin_pitch` stays legal; and both driver variants agree. -/
theorem C6_set_lp (dev : EceDev) (pitch : Nat) :
    ece_set_lp (ece_set_lp dev pitch) pitch = ece_set_lp dev pitch ∧
    (¬ legalLP pitch → ece_set_lp dev pitch = dev) ∧
    (legalLP dev.lin_pitch → legalLP (ece_set_lp dev pitch).lin_pitch) ∧
    ece_set_lp dev pitch = npcm750_ece_set_lp dev pitch := by
  unfold ece_set_lp npcm750_ece_set_lp npcm750_ece_write lpCode legalLP
  split_ifs <;>
    simp_all [Regs.write, RESOL, DDA_CTRL, DDA_STS, FBR_BA, ED_BA, RECT_XY,
      RECT_DIMEN, HEX_CTRL, HEX_RECT_OFFSET]

/-- C6 witness: idempotence and the legality invariant at the concrete legal
    pitch 1024, and rejection of the illegal pitch 1536 (which even passes
    the ioctl-level pre-filter `lp % 512 == 0 && lp <= 4096`). -/
theorem C6_set_lp_witness :
    ece_set_lp (ece_set_lp dev0 1024) 1024 = ece_set_lp dev0 1024 ∧
    ece_set_lp dev0 1536 = dev0 ∧
    legalLP (ece_set_lp dev0 1024).lin_pitch :=
  ⟨(C6_set_lp dev0 1024).1,
   (C6_set_lp dev0 1536).2.1 (by decide),
   (C6_set_lp dev0 1024).2.2.1 (by decide)⟩

/-! ## Claim C7: gap default -/

/-- C7: the returned `gap_length` equals 4 whenever bits 8..12 of the
    hex-control register read back from hardware are 0, and otherwise equals
    exactly that hardware field value. -/
theorem C7_gap_default (hex_ctrl : Nat) :
    (hex_ctrl / 2 ^ 8 % 2 ^ 5 = 0 →
      enc_gap_of_hex_ctrl hex_ctrl = ENC_MIN_GAP_SIZE) ∧
    (hex_ctrl / 2 ^ 8 % 2 ^ 5 ≠ 0 →
      enc_gap_of_hex_ctrl hex_ctrl = hex_ctrl / 2 ^ 8 % 2 ^ 5) := by
  unfold enc_gap_of_hex_ctrl
  rw [gap_field_eq]
  exact ⟨fun h => if_pos h, fun h => if_neg h⟩

/-- C7 witness: a hardware gap field of 0 yields the default 4, and the
    hex-control value 0x0300 (gap field 3) yields 3. -/
theorem C7_gap_default_witness :
    enc_gap_of_hex_ctrl 0 = ENC_MIN_GAP_SIZE ∧
    enc_gap_of_hex_ctrl 0x0300 = 3 :=
  ⟨(C7_gap_default 0).1 (by decide),
   by have h := (C7_gap_default 0x0300).2 (by decide); simpa using h⟩

/-! ## Claim C8: framebuffer address validation -/

/-- C8: calling the set-framebuffer operation with address 0 returns the
    invalid-argument error (`-EFAULT` in the source) and leaves the whole
    device state, in particular the FBR_BA register, unchanged; any non-zero
    address succeeds and programs FBR_BA with that address. -/
theorem C8_setfb (dev : EceDev) (framebuf : Nat) :
    (framebuf = 0 → drv_ioctl_setfb dev framebuf = (-EFAULT, dev)) ∧
    (framebuf ≠ 0 →
      (drv_ioctl_setfb dev framebuf).1 = 0 ∧
      (drv_ioctl_setfb dev framebuf).2.regs.fbr_ba = framebuf ∧
      (drv_ioctl_setfb dev framebuf).2.lin_pitch = dev.lin_pitch) := by
  unfold drv_ioctl_setfb ece_set_fb_addr
  constructor
  · intro h
    simp [h]
  · intro h
    simp [h, Regs.write, FBR_BA, DDA_CTRL, DDA_STS]

/-- C8 witness: address 0 is rejected with the prior state retained, and the
    concrete address 0x40000000 is programmed into FBR_BA. -/
theorem C8_setfb_witness :
    drv_ioctl_setfb dev0 0 = (-EFAULT, dev0) ∧
    (drv_ioctl_setfb dev0 0x40000000).2.regs.fbr_ba = 0x40000000 :=
  ⟨(C8_setfb dev0 0).1 rfl,
   ((C8_setfb dev0 0x40000000).2 (by decide)).2.1⟩

/-! ## Claim C9: the two reset sequences agree -/

/-- C9: although the two reset variants interleave the enable-bit and
    compression-disable-bit toggles in different orders, they produce the
    same final hardware register state from any starting state; in that
    state the encoder-enable bit (bit 0 of DDA_CTRL) is set, the
    encode-disable bit (bit 0 of HEX_CTRL) is clear, and HEX_RECT_OFFSET is
    zero. -/
theorem C9_reset_equiv (dev : EceDev) :
    (ece_reset dev).regs = (npcm750_ece_reset dev).regs ∧
    (ece_reset dev).regs.dda_ctrl.testBit 0 = true ∧
    (ece_reset dev).regs.hex_ctrl.testBit 0 = false ∧
    (ece_reset dev).regs.hex_rect_offset = 0 := by
  have h1 : (1 : Nat).testBit 0 = true := by decide
  have hm : (0xfffffffe : Nat).testBit 0 = false := by decide
  simp only [ece_reset, npcm750_ece_reset, npcm750_ece_update_bits,
    npcm750_ece_clear_rect_offset, npcm750_ece_write, ECEEN, ENCDIS,
    compl32_one]
  simp [Regs.read, Regs.write, DDA_CTRL, DDA_STS, FBR_BA, ED_BA, RECT_XY,
    RECT_DIMEN, RESOL, HEX_CTRL, HEX_RECT_OFFSET, land_land_self,
    land_lor_land, Nat.testBit_or, Nat.testBit_and, h1, hm]


/-! ## Claim C4: wait-and-read-size (media variant) -/

/-- C4 counterexample: the claim requires the clear of the ready bit to be
    verified by a subsequent re-read of the status register, but the trace
    of `npcm750_ece_get_ed_size` — the variant that takes the prior offset —
    ends with the clear write: no status read follows it.  Concretely, from
    the ready state with an all-zero buffer at offset 0 the call completes
    and its trace fails the read-after-clear-write predicate. -/
theorem C4_no_reread_counterexample :
    (npcm750_ece_get_ed_size regsReady bufZero 0).isSome = true ∧
    Option.map (fun r => hasStatusReadAfterClearWrite r.2.2)
      (npcm750_ece_get_ed_size regsReady bufZero 0) = some false := by
  constructor <;> rfl

/-- C4 (amended): `npcm750_ece_get_ed_size` blocks while bit 8
    (compressed-data-ready) of the status register is clear; once it is
    set, the call decodes the 4 bytes of the mapped output buffer at the
    prior offset as a little-endian 32-bit size, and only after those
    buffer reads clears the ready bit by writing the status value with
    bit 8 set back to the status register (the returned trace lists the
    transactions in program order: status read, the four buffer reads, the
    read-modify-write of the clear).  No status re-read follows the clear
    in this variant; the re-read exists only in the video variant's
    `ece_clear_drs`, whose trace ends with a status read after the clear
    write. -/
theorem C4_wait_read_clear (regs : Regs) (buf : Nat → Nat) (offset : Nat)
    (hb : ∀ i, buf i < 256) :
    (regs.dda_sts.testBit 8 = false →
      npcm750_ece_get_ed_size regs buf offset = none) ∧
    (regs.dda_sts.testBit 8 = true →
      npcm750_ece_get_ed_size regs buf offset =
        some (buf offset + 2 ^ 8 * buf (offset + 1) +
                2 ^ 16 * buf (offset + 2) + 2 ^ 24 * buf (offset + 3),
              regs.write DDA_STS ((regs.dda_sts &&& compl32 CDREADY) ||| CDREADY),
              [MmioEv.rdReg DDA_STS regs.dda_sts,
               MmioEv.rdBuf offset (buf offset),
               MmioEv.rdBuf (offset + 1) (buf (offset + 1)),
               MmioEv.rdBuf (offset + 2) (buf (offset + 2)),
               MmioEv.rdBuf (offset + 3) (buf (offset + 3)),
               MmioEv.rdReg DDA_STS regs.dda_sts,
               MmioEv.wrReg DDA_STS
                 ((regs.dda_sts &&& compl32 CDREADY) ||| CDREADY)]) ∧
      ((regs.dda_sts &&& compl32 CDREADY) ||| CDREADY).testBit 8 = true) ∧
    (∀ r : Regs, (ece_clear_drs r).2 =
      [MmioEv.rdReg DDA_STS r.dda_sts,
       MmioEv.wrReg DDA_STS (r.dda_sts ||| CDREADY),
       MmioEv.rdReg DDA_STS (r.dda_sts ||| CDREADY)]) := by
  have hread : ∀ r : Regs, r.read DDA_STS = r.dda_sts := by
    intro r
    simp [Regs.read, DDA_STS, DDA_CTRL]
  have hwr : ∀ (r : Regs) (v : Nat), (r.write DDA_STS v).read DDA_STS = v := by
    intro r v
    simp [Regs.read, Regs.write, DDA_STS, DDA_CTRL]
  have hwds : ∀ (r : Regs) (v : Nat), (r.write DDA_STS v).dda_sts = v := by
    intro r v
    simp [Regs.write, DDA_STS, DDA_CTRL]
  have hcd : CDREADY &&& CDREADY = CDREADY := by decide
  refine ⟨?_, ?_, ?_⟩
  · intro h
    have hz : regs.dda_sts &&& CDREADY = 0 := (land_cdready_eq_zero _).mpr h
    simp [npcm750_ece_get_ed_size, npcm750_ece_is_rect_compressed, hread, hz]
  · intro h
    have hz : ¬ (regs.dda_sts &&& CDREADY = 0) := by
      rw [land_cdready_eq_zero]
      simp [h]
    have hdec := le32_decode (buf offset) (buf (offset + 1)) (buf (offset + 2))
      (buf (offset + 3)) (hb _) (hb _) (hb _) (hb _)
    have h256 : (CDREADY : Nat).testBit 8 = true := by decide
    constructor
    · simp [npcm750_ece_get_ed_size, npcm750_ece_is_rect_compressed,
        npcm750_ece_clear_drs, hread, hz, hdec, hcd]
    · simp [Nat.testBit_or, h256]
  · intro r
    simp [ece_clear_drs, hread, hwr, hwds]

/-- C4 witness: the amended claim evaluated from the ready state with the
    all-zero buffer at prior offset 4. -/
theorem C4_wait_read_clear_witness :
    npcm750_ece_get_ed_size regsReady bufZero 4 =
      some (0,
        regsReady.write DDA_STS
          ((regsReady.dda_sts &&& compl32 CDREADY) ||| CDREADY),
        [MmioEv.rdReg DDA_STS regsReady.dda_sts,
         MmioEv.rdBuf 4 0, MmioEv.rdBuf 5 0, MmioEv.rdBuf 6 0,
         MmioEv.rdBuf 7 0,
         MmioEv.rdReg DDA_STS regsReady.dda_sts,
         MmioEv.wrReg DDA_STS
           ((regsReady.dda_sts &&& compl32 CDREADY) ||| CDREADY)]) ∧
    ((regsReady.dda_sts &&& compl32 CDREADY) ||| CDREADY).testBit 8 = true :=
  (C4_wait_read_clear regsReady bufZero 4 (fun i => by simp [bufZero])).2.1
    (by decide)

/-! ## Claim C5: bounded retry on zero size (video variant) -/

lemma ece_size_retry_le (buf : Nat → Nat → Nat) :
    ∀ fuel count, 30 - count ≤ fuel → count < 30 →
      (ece_size_retry buf count).2 ≤ 30 := by
  intro fuel
  induction fuel with
  | zero =>
    intro count hf hc
    omega
  | succ n ih =>
    intro count hf hc
    rw [ece_size_retry]
    split_ifs with h
    · exact ih (count + 1) (by omega) h.2
    · simp only []
      omega

lemma ece_size_retry_all_zero (buf : Nat → Nat → Nat)
    (hz : ∀ j, j < 30 → ece_read_size buf j = 0) :
    ∀ fuel count, 30 - count ≤ fuel → count < 30 →
      ece_size_retry buf count = (0, 30) := by
  intro fuel
  induction fuel with
  | zero =>
    intro count hf hc
    omega
  | succ n ih =>
    intro count hf hc
    rw [ece_size_retry]
    split_ifs with h
    · exact ih (count + 1) (by omega) h.2
    · have hs : ece_read_size buf count = 0 := hz count hc
      have hge : ¬ (count + 1 < 30) := fun hlt => h ⟨hs, hlt⟩
      have h30 : count + 1 = 30 := by omega
      rw [hs, h30]

lemma ece_size_retry_first_nonzero (buf : Nat → Nat → Nat) (k : Nat)
    (hk : k < 30) (hz : ∀ j, j < k → ece_read_size buf j = 0)
    (hnz : ece_read_size buf k ≠ 0) :
    ∀ fuel count, 30 - count ≤ fuel → count ≤ k →
      ece_size_retry buf count = (ece_read_size buf k, k + 1) := by
  intro fuel
  induction fuel with
  | zero =>
    intro count hf hc
    omega
  | succ n ih =>
    intro count hf hc
    rw [ece_size_retry]
    split_ifs with h
    · rcases Nat.lt_or_ge count k with hlt | hge
      · exact ih (count + 1) (by omega) (by omega)
      · have hck : count = k := by omega
        subst hck
        exact absurd h.1 hnz
    · rcases Nat.lt_or_ge count k with hlt | hge
      · exact absurd ⟨hz count hlt, by omega⟩ h
      · have hck : count = k := by omega
        subst hck
        rfl

/-- C5: once the ready bit has been observed, the video variant's retry
    loop performs at most 30 read attempts; if every attempt decodes 0, it
    stops after exactly 30 attempts and accepts 0 as the final answer; and
    it terminates at the first attempt that decodes a non-zero size,
    returning that size.  After the ready gate, `ece_get_ed_size` returns
    exactly the retry loop's size. -/
theorem C5_retry_bound (buf : Nat → Nat → Nat) :
    (ece_size_retry buf 0).2 ≤ 30 ∧
    ((∀ j, j < 30 → ece_read_size buf j = 0) →
      ece_size_retry buf 0 = (0, 30)) ∧
    (∀ k, k < 30 → (∀ j, j < k → ece_read_size buf j = 0) →
      ece_read_size buf k ≠ 0 →
      ece_size_retry buf 0 = (ece_read_size buf k, k + 1)) ∧
    (∀ regs : Regs, ece_is_rect_compressed regs = CDREADY →
      ece_get_ed_size regs buf =
        some ((ece_size_retry buf 0).1, (ece_clear_drs regs).1)) := by
  refine ⟨?_, ?_, ?_, ?_⟩
  · exact ece_size_retry_le buf 30 0 (by omega) (by omega)
  · intro hz
    exact ece_size_retry_all_zero buf hz 30 0 (by omega) (by omega)
  · intro k hk hz hnz
    exact ece_size_retry_first_nonzero buf k hk hz hnz 30 0 (by omega) (by omega)
  · intro regs hr
    simp [ece_get_ed_size, hr]

/-- C5 witness: with a buffer that decodes 0 on attempts 0 and 1 and size 9
    on attempt 2, the loop stops after 3 of the at-most-30 attempts with
    size 9, and the ready-gated wrapper returns that size. -/
theorem C5_retry_bound_witness :
    (ece_size_retry bufLate 0).2 ≤ 30 ∧
    ece_size_retry bufLate 0 = (ece_read_size bufLate 2, 3) ∧
    ece_get_ed_size regsReady bufLate =
      some ((ece_size_retry bufLate 0).1, (ece_clear_drs regsReady).1) :=
  ⟨(C5_retry_bound bufLate).1,
   (C5_retry_bound bufLate).2.2.1 2 (by decide)
     (fun j hj => by interval_cases j <;> rfl) (by decide),
   (C5_retry_bound bufLate).2.2.2 regsReady (by decide)⟩

